import Mathlib

/-!
Verification of the Analysis & Reporting pipeline of the cw-osint-ai backend.

Shallow embedding of:
  * backend/utils/report_generator.py  (ReportGenerator)
  * backend/analyzers/ai_analyzer.py   (AIAnalyzer)
  * backend/api/v1/reports.py          (export_report endpoint)

Python dictionaries that keep a fixed key set are embedded as Lean structures;
dictionaries with dynamic keys (the analyzer result payloads, the per-type
activity counter, the trends accumulator) are embedded as insertion-ordered
association lists, matching the insertion-order semantics of Python dict.
Hidden inputs of the source (the wall clock read by datetime.utcnow, and the
enumeration order of a Python hash set) are passed explicitly as parameters.
Python floats are modelled by rational numbers.
-/

namespace CwOsint

/-! ## Data model: analyses fed to ReportGenerator -/

/-- The value stored under the "sentiment" key of an analysis result payload:
either a flat string or a nested object whose "overall" key may be absent
(report_generator.py lines 50-55 distinguishes exactly these shapes). -/
inductive SentimentVal where
  | flat (s : String)
  | nested (overall : Option String)
deriving DecidableEq

/-- One entry of a result payload "trends" list (report_generator.py lines
78-91 reads keys "topic", "mentions", "sentiment", each possibly absent). -/
structure PyTrend where
  topic : Option String
  mentions : Option Int
  sentiment : Option String
deriving DecidableEq

/-- The keys of an AnalysisResult payload that ReportGenerator reads; a
missing key is modelled as none (Python: the key is not in the dict). -/
structure ResultPayload where
  sentiment : Option SentimentVal
  trends : Option (List PyTrend)
  key_insights : Option (List String)
  recommendations : Option (List String)
  key_points : Option (List String)
deriving DecidableEq

/-- The payload with none of the keys present. -/
def payload0 : ResultPayload := ⟨none, none, none, none, none⟩

/-- An Analysis model instance as consumed by ReportGenerator: a result
payload, an analysis_type string and a created_at timestamp (datetimes are
modelled by naturals; Python min/max on datetime is chronological order, and
isoformat is order-preserving, so the Nat order is faithful). -/
structure Analysis where
  result : ResultPayload
  analysis_type : String
  created_at : Nat
deriving DecidableEq

/-! ## Hash-set enumeration (Python list(set(xs)))

The source deduplicates insight strings with list(set(insights)).  A Python
set enumerates each distinct element exactly once, in an order determined by
the hash table, not by insertion; the order is therefore an additional hidden
input of the program.  We model it as a function parameter constrained to be
a valid set enumeration: a permutation of the distinct elements. -/

/-- One step of first-seen deduplication: keep a new element, drop a seen
one. -/
def fsdStep (acc : List String) (x : String) : List String :=
  if x ∈ acc then acc else acc ++ [x]

/-- The distinct elements of a list in first-seen order (the canonical
duplicate-free list used to state what a set enumeration must contain). -/
def firstSeenDedup (xs : List String) : List String :=
  xs.foldl fsdStep []

/-- f is a possible enumeration order of a Python hash set built from a list:
it lists exactly the distinct elements, once each, in some order. -/
def SetEnum (f : List String → List String) : Prop :=
  ∀ xs : List String, (f xs).Perm (firstSeenDedup xs)

/-! ## ReportGenerator._calculate_sentiment_distribution -/

/-- Sentiment counters (report_generator.py line 46). -/
structure SentCounts where
  positive : Nat
  negative : Nat
  neutral : Nat
deriving DecidableEq

/-- Sentiment percentages, one per bucket. -/
structure SentPcts where
  positive : ℚ
  negative : ℚ
  neutral : ℚ
deriving DecidableEq

/-- Result of _calculate_sentiment_distribution. -/
structure SentimentDistribution where
  counts : SentCounts
  percentages : SentPcts
deriving DecidableEq

/-- One iteration of the counting loop (report_generator.py lines 48-58):
read the sentiment key; a dict value falls back to its "overall" key with
default "neutral"; count only values inside the three buckets. -/
def countSentiment (c : SentCounts) (a : Analysis) : SentCounts :=
  match a.result.sentiment with
  | none => c
  | some sd =>
    let s := match sd with
      | .nested o => o.getD "neutral"
      | .flat t => t
    if s = "positive" then { c with positive := c.positive + 1 }
    else if s = "negative" then { c with negative := c.negative + 1 }
    else if s = "neutral" then { c with neutral := c.neutral + 1 }
    else c

/-- Total of the three buckets (report_generator.py line 60). -/
def sentTotal (c : SentCounts) : Nat := c.positive + c.negative + c.neutral

/-- Round a rational to the nearest integer, ties to even (the rounding of
Python round on an ideal real value). -/
def roundHalfEven (q : ℚ) : Int :=
  let f := ⌊q⌋
  let frac := q - f
  if frac < 1/2 then f
  else if frac > 1/2 then f + 1
  else if f % 2 = 0 then f else f + 1

/-- Python round(x, 2): round to 2 decimal places. -/
def round2 (q : ℚ) : ℚ := (roundHalfEven (q * 100) : ℚ) / 100

/-- Percentage of one bucket (report_generator.py line 62). -/
def pctOf (v total : Nat) : ℚ := round2 ((v : ℚ) / (total : ℚ) * 100)

/-- ReportGenerator._calculate_sentiment_distribution (lines 44-69). -/
def calculate_sentiment_distribution (analyses : List Analysis) :
    SentimentDistribution :=
  let c := analyses.foldl countSentiment ⟨0, 0, 0⟩
  let total := sentTotal c
  { counts := c
    percentages :=
      if total > 0 then
        ⟨pctOf c.positive total, pctOf c.negative total, pctOf c.neutral total⟩
      else ⟨0, 0, 0⟩ }

/-! ## ReportGenerator._extract_top_trends -/

/-- One value of the trends_map accumulator before finalization
(report_generator.py lines 82-86). -/
structure TrendAcc where
  topic : String
  total_mentions : Int
  sentiment_scores : List Int
deriving DecidableEq

/-- One merged trend after finalization (lines 94-106 replace the score list
by an overall_sentiment). -/
structure TrendOut where
  topic : String
  total_mentions : Int
  overall_sentiment : String
deriving DecidableEq

/-- Signed score of one trend entry sentiment (line 90). -/
def scoreOf (sentiment : String) : Int :=
  if sentiment = "positive" then 1 else if sentiment = "negative" then -1 else 0

/-- The in-place update of lines 87-91 on the accumulator value of topic t:
add mentions (default 1) and append one signed score; other values are left
alone. -/
def updTrend (t : String) (e : PyTrend) (acc : TrendAcc) : TrendAcc :=
  if acc.topic = t then
    { acc with
      total_mentions := acc.total_mentions + e.mentions.getD 1,
      sentiment_scores :=
        acc.sentiment_scores ++ [scoreOf (e.sentiment.getD "neutral")] }
  else acc

/-- Processing of one trends entry into the accumulator (lines 79-91):
a missing or empty topic is skipped (Python: if topic), a fresh topic is
appended at the end (dict insertion order), mentions defaults to 1 and the
entry appends one signed score via updTrend. -/
def addTrend (m : List TrendAcc) (e : PyTrend) : List TrendAcc :=
  match e.topic with
  | none => m
  | some t =>
    if t = "" then m
    else
      let m' := if m.any (fun acc => acc.topic = t) then m else m ++ [⟨t, 0, []⟩]
      m'.map (updTrend t e)

/-- The trends list of one analysis; a payload without the key contributes
nothing (line 77). -/
def trendsOf (a : Analysis) : List PyTrend := a.result.trends.getD []

/-- The trends_map accumulator after the two nested loops of lines 75-91,
as an insertion-ordered association list. -/
def trendsMap (analyses : List Analysis) : List TrendAcc :=
  analyses.foldl (fun m a => (trendsOf a).foldl addTrend m) []

/-- Overall sentiment from a score list (lines 95-105): mean above 3/10 is
positive, below -3/10 negative, else neutral; an empty list is neutral. -/
def overallSentiment (scores : List Int) : String :=
  if scores.isEmpty then "neutral"
  else
    let avg : ℚ := (scores.sum : ℚ) / (scores.length : ℚ)
    if avg > 3/10 then "positive"
    else if avg < -(3/10) then "negative"
    else "neutral"

/-- Finalize one accumulator value (lines 94-106). -/
def finalizeTrend (t : TrendAcc) : TrendOut :=
  ⟨t.topic, t.total_mentions, overallSentiment t.sentiment_scores⟩

/-- Insert into a list sorted by total_mentions descending, before the first
strictly smaller key; among equal keys the inserted element, which comes
earlier in the original list, stays first. -/
def insertDesc (x : TrendOut) : List TrendOut → List TrendOut
  | [] => [x]
  | y :: ys =>
    if y.total_mentions ≤ x.total_mentions then x :: y :: ys
    else y :: insertDesc x ys

/-- The stable descending sort by total_mentions of lines 109-113 (Python
sorted with reverse=True is stable: equal keys keep their original order;
insertion sort from the right realizes exactly that order). -/
def sortDesc (l : List TrendOut) : List TrendOut := l.foldr insertDesc []

/-- ReportGenerator._extract_top_trends (lines 71-115). -/
def extract_top_trends (analyses : List Analysis) (limit : Nat) : List TrendOut :=
  (sortDesc ((trendsMap analyses).map finalizeTrend)).take limit

/-! ## ReportGenerator._extract_key_insights -/

/-- The concatenation loop of lines 121-134: key_insights, recommendations
and key_points of every result, in input order. -/
def collectInsights (analyses : List Analysis) : List String :=
  analyses.foldl
    (fun acc a =>
      ((acc ++ a.result.key_insights.getD []) ++ a.result.recommendations.getD [])
        ++ a.result.key_points.getD []) []

/-- ReportGenerator._extract_key_insights (lines 117-138): list(set(xs))[:15],
with the hash-set enumeration order passed as the parameter setOrder. -/
def extract_key_insights (setOrder : List String → List String)
    (analyses : List Analysis) : List String :=
  (setOrder (collectInsights analyses)).take 15

/-! ## ReportGenerator._summarize_activity -/

/-- Result of _summarize_activity: a count per analysis_type, as an
insertion-ordered association list, plus the total (lines 140-153). -/
structure ActivitySummary where
  by_type : List (String × Nat)
  total : Nat
deriving DecidableEq

/-- One step of the counting loop of lines 144-148. -/
def bumpType (m : List (String × Nat)) (t : String) : List (String × Nat) :=
  if m.any (fun kv => kv.1 = t) then
    m.map (fun kv => if kv.1 = t then (kv.1, kv.2 + 1) else kv)
  else m ++ [(t, 1)]

/-- ReportGenerator._summarize_activity (lines 140-153). -/
def summarize_activity (analyses : List Analysis) : ActivitySummary :=
  { by_type := analyses.foldl (fun m a => bumpType m a.analysis_type) []
    total := analyses.length }

/-! ## ReportGenerator.generate_insights -/

/-- The insights dictionary built at lines 29-40 for a non-empty input. -/
structure Insights where
  total_analyses : Nat
  period_start : Nat
  period_end : Nat
  sentiment_distribution : SentimentDistribution
  top_trends : List TrendOut
  key_insights : List String
  activity_summary : ActivitySummary
  generated_at : String
deriving DecidableEq

/-- The hidden inputs of one generate_insights invocation: the isoformat
string returned by datetime.utcnow at line 39, and the hash-set enumeration
order used inside _extract_key_insights. -/
structure Env where
  now : String
  setOrder : List String → List String

/-- ReportGenerator.generate_insights (lines 16-42).  On an empty input the
source returns the empty dictionary (line 27), modelled as none; otherwise it
returns the dictionary of lines 29-40.  The function is total: it never
raises. -/
def generate_insights (env : Env) (analyses : List Analysis) : Option Insights :=
  match analyses with
  | [] => none
  | a :: rest =>
    some
      { total_analyses := (a :: rest).length
        period_start := (rest.map Analysis.created_at).foldl min a.created_at
        period_end := (rest.map Analysis.created_at).foldl max a.created_at
        sentiment_distribution := calculate_sentiment_distribution (a :: rest)
        top_trends := extract_top_trends (a :: rest) 10
        key_insights := extract_key_insights env.setOrder (a :: rest)
        activity_summary := summarize_activity (a :: rest)
        generated_at := env.now }

/-! ## ReportGenerator.generate_summary -/

/-- The items of the percentages dict in its insertion order: the dict is
built by a comprehension over the counters dict, which was created with keys
positive, negative, neutral in that order (lines 46 and 62). -/
def pctItems (p : SentPcts) : List (String × ℚ) :=
  [("positive", p.positive), ("negative", p.negative), ("neutral", p.neutral)]

/-- Python max(items, key=...): fold keeping the current element unless a
later one is strictly greater, so the first maximal element wins. -/
def pyMaxBySnd (x : String × ℚ) (l : List (String × ℚ)) : String × ℚ :=
  l.foldl (fun best y => if y.2 > best.2 then y else best) x

/-- The dominant bucket chosen at line 176 of report_generator.py. -/
def dominantOf (p : SentPcts) : String × ℚ :=
  pyMaxBySnd ("positive", p.positive) [("negative", p.negative), ("neutral", p.neutral)]

/-- ReportGenerator.generate_summary (lines 155-189).  The argument none
models an empty insights dict, for which every .get falls back to its
default.  Numeric rendering is modelled by the Lean representation of the
number (Python prints floats with a trailing .0; the digits are immaterial
to the claims). -/
def generate_summary (insights : Option Insights) : String :=
  let total : Nat := match insights with
    | none => 0
    | some i => i.total_analyses
  let sd : Option SentimentDistribution := match insights with
    | none => none
    | some i => some i.sentiment_distribution
  let trends : List TrendOut := match insights with
    | none => []
    | some i => i.top_trends
  let parts : List String :=
    ["Analysis of " ++ toString total ++
      " data points collected during the specified period."]
  let parts : List String := match sd with
    | some s =>
      let dom := dominantOf s.percentages
      parts ++ ["Overall sentiment is predominantly " ++ dom.1 ++
        " (" ++ toString dom.2 ++ "%)."]
    | none => parts
  let parts : List String :=
    if trends.isEmpty then parts
    else
      parts ++ ["Top trending topics include: " ++
        String.intercalate ", " ((trends.take 3).map TrendOut.topic) ++ "."]
  String.intercalate " " parts

/-! ## Exporter: ReportGenerator.export_pdf / export_html and the
export_report endpoint of backend/api/v1/reports.py -/

/-- A stored Report row, with the fields the export endpoint reads.  The
insights column holds whatever dict generate_insights produced (none models
the empty dict). -/
structure Report where
  id : Int
  title : String
  period_start : String
  period_end : String
  summary : String
  insights : Option Insights
  created_at : String
deriving DecidableEq

/-- ReportGenerator.export_pdf (lines 191-203): a placeholder byte string. -/
def export_pdf : String := "PDF export not yet implemented"

/-- Rendering of the sentiment block (lines 255-265). -/
def render_sentiment_html (sd : Option SentimentDistribution) : String :=
  match sd with
  | none => "<p>No sentiment data available</p>"
  | some s =>
    "\n            <p>Positive: " ++ toString s.percentages.positive ++
    "%</p>\n            <p>Neutral: " ++ toString s.percentages.neutral ++
    "%</p>\n            <p>Negative: " ++ toString s.percentages.negative ++
    "%</p>\n        "

/-- Rendering of one trend block line (lines 273-280). -/
def render_one_trend_html (t : TrendOut) : String :=
  "\n            <div class=\"trend\">\n                <strong>" ++ t.topic ++
  "</strong> - \n                " ++ toString t.total_mentions ++
  " mentions \n                (" ++ t.overall_sentiment ++
  " sentiment)\n            </div>\n            "

/-- Rendering of the trends block (lines 267-282). -/
def render_trends_html (trends : List TrendOut) : String :=
  if trends.isEmpty then "<p>No trends data available</p>"
  else String.join (trends.map render_one_trend_html)

/-- ReportGenerator.export_html (lines 205-253): the fixed template with the
report fields interpolated; literal braces of the CSS block are written
escaped.  An empty insights dict (none) makes every .get fall back. -/
def export_html (report : Report) : String :=
  let sd : Option SentimentDistribution := match report.insights with
    | none => none
    | some i => some i.sentiment_distribution
  let trends : List TrendOut := match report.insights with
    | none => []
    | some i => i.top_trends
  let keyIns : List String := match report.insights with
    | none => []
    | some i => i.key_insights
  "\n        <!DOCTYPE html>\n        <html>\n        <head>\n            <title>" ++
  report.title ++
  "</title>\n            <style>\n                body \x7b font-family: Arial, sans-serif; margin: 40px; \x7d\n                h1 \x7b color: #333; \x7d\n                .metric \x7b margin: 20px 0; padding: 15px; background: #f5f5f5; \x7d\n                .trend \x7b margin: 10px 0; padding: 10px; border-left: 3px solid #007bff; \x7d\n            </style>\n        </head>\n        <body>\n            <h1>" ++
  report.title ++
  "</h1>\n            <p><strong>Period:</strong> " ++ report.period_start ++
  " to " ++ report.period_end ++
  "</p>\n            <p><strong>Generated:</strong> " ++ report.created_at ++
  "</p>\n            \n            <h2>Summary</h2>\n            <p>" ++
  report.summary ++
  "</p>\n            \n            <h2>Sentiment Distribution</h2>\n            <div class=\"metric\">\n                " ++
  render_sentiment_html sd ++
  "\n            </div>\n            \n            <h2>Top Trends</h2>\n            " ++
  render_trends_html trends ++
  "\n            \n            <h2>Key Insights</h2>\n            <ul>\n                " ++
  String.join (keyIns.map (fun insight => "<li>" ++ insight ++ "</li>")) ++
  "\n            </ul>\n        </body>\n        </html>\n        "

/-- The response of the export_report endpoint (reports.py lines 146-184):
notFound models HTTPException 404, badRequest models HTTPException 400, the
other constructors model the three success responses. -/
inductive ExportResult where
  | notFound (detail : String)
  | jsonRes (insights : Option Insights)
  | pdfRes (content : String) (mediaType : String) (contentDisposition : String)
  | htmlRes (content : String) (mediaType : String)
  | badRequest (detail : String)
deriving DecidableEq

/-- export_report (reports.py lines 146-184) over a database modelled as the
list of stored reports.  The endpoint performs no write, so the returned
database is the input database unchanged. -/
def export_report (db : List Report) (report_id : Int) (format : String) :
    ExportResult × List Report :=
  match db.find? (fun r => r.id = report_id) with
  | none =>
    (.notFound ("Report with ID " ++ toString report_id ++ " not found"), db)
  | some report =>
    if format = "json" then (.jsonRes report.insights, db)
    else if format = "pdf" then
      (.pdfRes export_pdf "application/pdf"
        ("attachment; filename=report_" ++ toString report_id ++ ".pdf"), db)
    else if format = "html" then
      (.htmlRes (export_html report) "text/html", db)
    else
      (.badRequest ("Unsupported format: " ++ format ++
        ". Use json, pdf, or html"), db)

/-! ## AIAnalyzer (backend/analyzers/ai_analyzer.py)

The analyzer returns dynamic Python dicts, embedded as insertion-ordered
association lists over a JSON value type.  The network call of
_call_gradient_ai is an external capability: its outcome (a raw completion
string, or a raised transport exception) is an input of the model, as are
the wall-clock readings and the behaviour of json.loads on the raw string.
Prompt construction (_build_prompt, lines 70-170) only determines the text
sent to the external capability and cannot raise (dict lookups with a total
fallback and f-string formatting), so it is subsumed by the outcome input. -/

/-- A value produced by json.loads: an object, or any non-object value. -/
inductive PyJson where
  | obj (entries : List (String × PyJson))
  | arr (elems : List PyJson)
  | str (s : String)
  | num (n : Int)
  | boolean (b : Bool)
  | null

/-- A Python dict with string keys. -/
abbrev PyDict := List (String × PyJson)

/-- Python dict key access d.get(k): the value of the first entry with the
key, if any. -/
def lookupKey (k : String) : PyDict → Option PyJson
  | [] => none
  | (k₁, v) :: rest => if k = k₁ then some v else lookupKey k rest

/-- Python dict item assignment d[k] = v: an existing key keeps its position
and gets the new value, a fresh key is appended at the end. -/
def dictSet (d : PyDict) (k : String) (v : PyJson) : PyDict :=
  if (lookupKey k d).isSome then
    d.map (fun kv => if kv.1 = k then (k, v) else kv)
  else d ++ [(k, v)]

/-- Outcome of the awaited _call_gradient_ai: a returned completion string,
or a raised transport exception with message e (lines 214-219 re-raise). -/
inductive InferOutcome where
  | ok (raw : String)
  | fail (e : String)

/-- The hidden inputs of one analyze invocation: the call outcome, the
isoformat timestamp taken inside _structure_result, and the two possible
processing_time readings (line 53 on the success path, line 66 inside the
except handler). -/
structure CallEnv where
  outcome : InferOutcome
  now : String
  tOk : Int
  tErr : Int

/-- The message of the TypeError raised by item assignment on a non-dict
(its interpreter-specific text is irrelevant to the claims). -/
def tyErrMsg : String := "TypeError: object does not support item assignment"

/-- AIAnalyzer._structure_result (lines 221-248), with json.loads passed in
as jloads (none models a raised json.JSONDecodeError).  Returns none when
the line parsed['analysis_type'] = ... raises TypeError, which happens
exactly when json.loads succeeded with a non-object value; that exception
escapes _structure_result (only JSONDecodeError is caught there). -/
def structure_result (jloads : String → Option PyJson) (now : String)
    (ai_response : String) (analysis_type : String) : Option PyDict :=
  match jloads ai_response with
  | some (.obj d) =>
    some (dictSet (dictSet d "analysis_type" (.str analysis_type))
      "timestamp" (.str now))
  | some _ => none
  | none =>
    some [("analysis_type", .str analysis_type),
          ("raw_response", .str ai_response),
          ("timestamp", .str now),
          ("parsed", .boolean false)]

/-- The error record built by the except handler of analyze (lines 62-68). -/
def errRecord (e : String) (t : Int) (model : String) : PyDict :=
  [("error", .str e), ("processing_time", .num t), ("model", .str model)]

/-- AIAnalyzer.analyze (lines 27-68).  The whole body runs inside one
try/except Exception, so the function always returns a dict and never
raises: a transport failure, and equally the TypeError escaping
_structure_result, land in the except handler.  The content and metadata
arguments feed only the prompt (see the section comment). -/
def analyze (model : String) (jloads : String → Option PyJson) (env : CallEnv)
    (content : String) (analysis_type : String) (metadata : Option String) :
    PyDict :=
  match env.outcome with
  | .fail e => errRecord e env.tErr model
  | .ok raw =>
    match structure_result jloads env.now raw analysis_type with
    | some d => dictSet (dictSet d "processing_time" (.num env.tOk))
        "model" (.str model)
    | none => errRecord tyErrMsg env.tErr model

/-- One item of a batch_analyze input: a dict read through item.get with
keys content (default "") and metadata (default None), lines 269-271. -/
structure Item where
  content : Option String
  metadata : Option String

/-- The loop of batch_analyze (lines 265-273), with the call environment of
the i-th iteration supplied by envs. -/
def batchGo (model : String) (jloads : String → Option PyJson)
    (envs : Nat → CallEnv) (analysis_type : String) (i : Nat) :
    List Item → List PyDict
  | [] => []
  | item :: rest =>
    analyze model jloads (envs i) (item.content.getD "") analysis_type
        item.metadata ::
      batchGo model jloads envs analysis_type (i + 1) rest

/-- AIAnalyzer.batch_analyze (lines 250-275). -/
def batch_analyze (model : String) (jloads : String → Option PyJson)
    (envs : Nat → CallEnv) (items : List Item) (analysis_type : String) :
    List PyDict :=
  batchGo model jloads envs analysis_type 0 items

/-! ## Spec-side recomputations used to state refinement properties

These follow the words of the specification (per-topic totals and score
lists computed directly over the flat stream of trend entries) and are
compared with the accumulator-based computation of the source. -/

/-- The flat stream of trend entries in encounter order: the nested loops of
_extract_top_trends visit exactly this sequence. -/
def allTrendEntries (analyses : List Analysis) : List PyTrend :=
  (analyses.map trendsOf).flatten

/-- The topic of an entry if the source merges it: Python skips a missing or
empty topic (if topic). -/
def truthyTopic (e : PyTrend) : Option String :=
  match e.topic with
  | some t => if t = "" then none else some t
  | none => none

/-- The merged topics in encounter order, duplicates included. -/
def truthyTopics (es : List PyTrend) : List String := es.filterMap truthyTopic

/-- All entries merged under topic t. -/
def entriesFor (t : String) (es : List PyTrend) : List PyTrend :=
  es.filter (fun e => truthyTopic e = some t)

/-- Spec-side total mentions of a topic: the sum of mentions, default 1,
over every entry of that topic. -/
def specTotal (t : String) (es : List PyTrend) : Int :=
  ((entriesFor t es).map (fun e => e.mentions.getD 1)).sum

/-- Spec-side score list of a topic: one signed score per entry of that
topic, in encounter order. -/
def specScores (t : String) (es : List PyTrend) : List Int :=
  (entriesFor t es).map (fun e => scoreOf (e.sentiment.getD "neutral"))

/-- First-seen deduplication followed by the cap, as the words of the
specification describe key-insight extraction. -/
def specKeyInsights (analyses : List Analysis) : List String :=
  (firstSeenDedup (collectInsights analyses)).take 15

/-! ## Concrete inputs used by counterexamples and witnesses -/

/-- A hash-set enumeration that lists the distinct elements in reverse
first-seen order; a legitimate set order that differs from first-seen. -/
def gRev : List String → List String := fun xs => (firstSeenDedup xs).reverse

/-- A run environment: some fixed clock reading, first-seen set order. -/
def env0 : Env := ⟨"2024-01-01T00:00:00", firstSeenDedup⟩

/-- A later run environment with the reversed set order. -/
def envB : Env := ⟨"2024-01-02T00:00:00", gRev⟩

/-- One analysis carrying two key insights. -/
def exampleTwoIns : List Analysis :=
  [⟨{ payload0 with key_insights := some ["a", "b"] }, "comprehensive", 0⟩]

/-- The two-result trend input of the specification: topic A, mentions 5,
positive, merged with topic A, mentions 3, negative. -/
def exampleTrends : List Analysis :=
  [⟨{ payload0 with trends := some [⟨some "A", some 5, some "positive"⟩] },
      "trend", 0⟩,
   ⟨{ payload0 with trends := some [⟨some "A", some 3, some "negative"⟩] },
      "trend", 1⟩]

/-- Five analyses with sentiments positive, positive, positive, negative,
neutral (one of the positives through the nested shape). -/
def exampleSent : List Analysis :=
  [⟨{ payload0 with sentiment := some (.flat "positive") }, "sentiment", 0⟩,
   ⟨{ payload0 with sentiment := some (.flat "positive") }, "sentiment", 1⟩,
   ⟨{ payload0 with sentiment := some (.nested (some "positive")) },
      "comprehensive", 2⟩,
   ⟨{ payload0 with sentiment := some (.flat "negative") }, "sentiment", 3⟩,
   ⟨{ payload0 with sentiment := some (.flat "neutral") }, "sentiment", 4⟩]

/-- An insights value whose positive and negative percentages tie at 50. -/
def tieInsights : Insights :=
  { total_analyses := 2
    period_start := 0
    period_end := 1
    sentiment_distribution := ⟨⟨1, 1, 0⟩, ⟨50, 50, 0⟩⟩
    top_trends := []
    key_insights := []
    activity_summary := ⟨[("sentiment", 2)], 2⟩
    generated_at := "2024-01-01T00:00:00" }

/-- A json.loads behaviour under which the raw string "[1, 2]" parses to the
JSON array [1, 2] (as the real json.loads does) and everything else fails. -/
def jloadsArr : String → Option PyJson :=
  fun s => if s = "[1, 2]" then some (.arr [.num 1, .num 2]) else none

/-- A call environment whose inference call succeeds with the array text. -/
def envArr : CallEnv := ⟨.ok "[1, 2]", "2024-01-01T00:00:00", 1, 1⟩

/-- A stored report for the export counterexamples and witnesses. -/
def exampleReport : Report :=
  { id := 1
    title := "Weekly OSINT"
    period_start := "2024-01-01"
    period_end := "2024-01-07"
    summary := "Analysis of 2 data points collected during the specified period."
    insights := some tieInsights
    created_at := "2024-01-08T00:00:00" }

/-- The sentiment counters accumulated by the loop of lines 48-58. -/
def sentCountsOf (analyses : List Analysis) : SentCounts :=
  analyses.foldl countSentiment ⟨0, 0, 0⟩

/-- Agreement of two generate_insights outputs on every field that does not
depend on the hidden inputs (the clock reading and the hash-set enumeration
order): everything except generated_at and the key_insights ordering; of
key_insights only length and duplicate-freedom are stable. -/
def stableAgree : Option Insights → Option Insights → Prop
  | none, none => True
  | some a, some b =>
    a.total_analyses = b.total_analyses
    ∧ a.period_start = b.period_start
    ∧ a.period_end = b.period_end
    ∧ a.sentiment_distribution = b.sentiment_distribution
    ∧ a.top_trends = b.top_trends
    ∧ a.activity_summary = b.activity_summary
    ∧ a.key_insights.length = b.key_insights.length
    ∧ a.key_insights.Nodup ∧ b.key_insights.Nodup
  | _, _ => False

/-! ## Lemmas: first-seen deduplication and set enumerations -/

theorem mem_fsdStep {acc : List String} {x y : String} :
    y ∈ fsdStep acc x ↔ y ∈ acc ∨ y = x := by
  unfold fsdStep
  split
  · next h =>
      constructor
      · exact Or.inl
      · rintro (hy | rfl)
        · exact hy
        · exact h
  · simp

theorem mem_foldl_fsdStep :
    ∀ (xs acc : List String) (y : String),
      y ∈ xs.foldl fsdStep acc ↔ y ∈ acc ∨ y ∈ xs := by
  intro xs
  induction xs with
  | nil => intro acc y; simp
  | cons x xs ih =>
    intro acc y
    rw [List.foldl_cons, ih]
    rw [mem_fsdStep]
    simp only [List.mem_cons]
    tauto

theorem mem_firstSeenDedup {xs : List String} {y : String} :
    y ∈ firstSeenDedup xs ↔ y ∈ xs := by
  unfold firstSeenDedup
  rw [mem_foldl_fsdStep]
  simp

theorem nodup_fsdStep {acc : List String} {x : String} (h : acc.Nodup) :
    (fsdStep acc x).Nodup := by
  unfold fsdStep
  split
  · exact h
  · next hx => simp [List.nodup_append, h, hx]

theorem nodup_foldl_fsdStep :
    ∀ (xs acc : List String), acc.Nodup → (xs.foldl fsdStep acc).Nodup := by
  intro xs
  induction xs with
  | nil => intro acc h; exact h
  | cons x xs ih => intro acc h; exact ih _ (nodup_fsdStep h)

theorem nodup_firstSeenDedup (xs : List String) : (firstSeenDedup xs).Nodup :=
  nodup_foldl_fsdStep xs [] List.nodup_nil

theorem firstSeenDedup_append_singleton (xs : List String) (x : String) :
    firstSeenDedup (xs ++ [x]) = fsdStep (firstSeenDedup xs) x := by
  unfold firstSeenDedup
  rw [List.foldl_append]
  rfl

theorem setEnum_firstSeenDedup : SetEnum firstSeenDedup :=
  fun _ => List.Perm.refl _

theorem setEnum_gRev : SetEnum gRev :=
  fun xs => List.reverse_perm (firstSeenDedup xs)

/-! ## Claim C1: generate_insights on the empty input -/

/-- Claim C1, counterexample.  The claim states that the empty input yields
an Insights value with total 0 and all sub-aggregates present but empty; in
the source, line 27 returns the empty dictionary instead, which carries no
total and no sub-aggregates at all: no Insights value is returned. -/
theorem C1_empty_input_no_insights_value :
    ¬ ∃ i : Insights, generate_insights env0 [] = some i := by
  simp [generate_insights]

/-- Claim C1, amended.  For the empty input list, generate_insights returns
the empty dictionary (modelled as none): no total field and no
sub-aggregates.  It does not raise: the function is total and hits only the
guard of lines 26-27, never the aggregation of lines 29-40. -/
theorem C1_empty_input_returns_empty_dict :
    ∀ env : Env, generate_insights env [] = none := by
  intro env
  rfl

/-! ## Claims C7 and C10: sentiment distribution -/

theorem counts_append (xs : List Analysis) (a : Analysis) :
    (xs ++ [a]).foldl countSentiment ⟨0, 0, 0⟩ =
      countSentiment (xs.foldl countSentiment ⟨0, 0, 0⟩) a := by
  rw [List.foldl_append]
  rfl

/-- Claim C10.  In sentiment counting, a nested sentiment object without the
overall key is counted in the neutral bucket (the .get default at line 53),
while a flat sentiment string outside the three buckets is counted nowhere:
appending such a result leaves the whole distribution, counts and
percentage denominator included, unchanged. -/
theorem C10_sentiment_default_and_skip :
    ∀ (xs : List Analysis) (t : String) (ca : Nat) (s : String),
      ((xs ++ [(⟨{ payload0 with sentiment := some (.nested none) }, t, ca⟩ :
            Analysis)]).foldl countSentiment ⟨0, 0, 0⟩ =
        { xs.foldl countSentiment ⟨0, 0, 0⟩ with
          neutral := (xs.foldl countSentiment ⟨0, 0, 0⟩).neutral + 1 })
      ∧ (s ≠ "positive" → s ≠ "negative" → s ≠ "neutral" →
          calculate_sentiment_distribution
              (xs ++ [(⟨{ payload0 with sentiment := some (.flat s) }, t, ca⟩ :
                Analysis)]) =
            calculate_sentiment_distribution xs) := by
  intro xs t ca s
  constructor
  · rw [counts_append]
    simp [countSentiment, payload0, Option.getD]
  · intro h1 h2 h3
    unfold calculate_sentiment_distribution
    rw [counts_append]
    simp [countSentiment, payload0, h1, h2, h3]

/-- Claim C10, witness. -/
theorem C10_sentiment_default_and_skip_w :
    calculate_sentiment_distribution
        [⟨{ payload0 with sentiment := some (.flat "mixed") }, "sentiment", 0⟩] =
      calculate_sentiment_distribution [] :=
  (C10_sentiment_default_and_skip [] "sentiment" 0 "mixed").2
    (by decide) (by decide) (by decide)

theorem sentTotal_eq_zero {c : SentCounts} (h : sentTotal c = 0) :
    c = ⟨0, 0, 0⟩ := by
  obtain ⟨p, n, u⟩ := c
  unfold sentTotal at h
  simp only at h
  simp only [SentCounts.mk.injEq]
  omega

/-- Claim C7.  Each percentage equals its count divided by the total of
counted sentiments times 100, rounded to 2 decimals; a zero total yields all
zero counts and percentages with no division; counts 3/1/1 yield 60/20/20. -/
theorem C7_percentage_formula :
    (∀ analyses : List Analysis,
      (calculate_sentiment_distribution analyses).counts = sentCountsOf analyses
      ∧ (sentTotal (sentCountsOf analyses) > 0 →
          (calculate_sentiment_distribution analyses).percentages =
            ⟨round2 (((sentCountsOf analyses).positive : ℚ) /
                (sentTotal (sentCountsOf analyses) : ℚ) * 100),
             round2 (((sentCountsOf analyses).negative : ℚ) /
                (sentTotal (sentCountsOf analyses) : ℚ) * 100),
             round2 (((sentCountsOf analyses).neutral : ℚ) /
                (sentTotal (sentCountsOf analyses) : ℚ) * 100)⟩)
      ∧ (sentTotal (sentCountsOf analyses) = 0 →
          (calculate_sentiment_distribution analyses).counts = ⟨0, 0, 0⟩
          ∧ (calculate_sentiment_distribution analyses).percentages = ⟨0, 0, 0⟩))
    ∧ calculate_sentiment_distribution exampleSent = ⟨⟨3, 1, 1⟩, ⟨60, 20, 20⟩⟩ := by
  constructor
  · intro analyses
    refine ⟨rfl, fun h => ?_, fun h => ?_⟩
    · unfold sentCountsOf at h ⊢
      unfold calculate_sentiment_distribution
      simp only
      rw [if_pos h]
      rfl
    · unfold sentCountsOf at h
      unfold calculate_sentiment_distribution
      simp only
      rw [if_neg (by simp [h])]
      exact ⟨sentTotal_eq_zero h, rfl⟩
  · simp [calculate_sentiment_distribution, exampleSent, countSentiment, payload0]
    norm_num [sentTotal, pctOf, round2, roundHalfEven]

/-- Claim C7, witness: the percentage formula applied to the concrete
five-result input with total 5. -/
theorem C7_percentage_formula_w :
    (calculate_sentiment_distribution exampleSent).percentages =
      ⟨round2 (((sentCountsOf exampleSent).positive : ℚ) /
          (sentTotal (sentCountsOf exampleSent) : ℚ) * 100),
       round2 (((sentCountsOf exampleSent).negative : ℚ) /
          (sentTotal (sentCountsOf exampleSent) : ℚ) * 100),
       round2 (((sentCountsOf exampleSent).neutral : ℚ) /
          (sentTotal (sentCountsOf exampleSent) : ℚ) * 100)⟩ :=
  (C7_percentage_formula.1 exampleSent).2.1 (by decide)

/-! ## Claims C3 and C2: key-insight extraction and determinism -/

theorem extract_key_insights_spec (f : List String → List String)
    (analyses : List Analysis) (hf : SetEnum f) :
    (extract_key_insights f analyses).Nodup
    ∧ (∀ s ∈ extract_key_insights f analyses, s ∈ collectInsights analyses)
    ∧ (extract_key_insights f analyses).length =
        min 15 (firstSeenDedup (collectInsights analyses)).length
    ∧ ((firstSeenDedup (collectInsights analyses)).length ≤ 15 →
        (extract_key_insights f analyses).Perm
          (firstSeenDedup (collectInsights analyses))) := by
  have hperm := hf (collectInsights analyses)
  have hnd : (f (collectInsights analyses)).Nodup :=
    hperm.symm.nodup (nodup_firstSeenDedup _)
  refine ⟨?_, ?_, ?_, ?_⟩
  · exact List.Nodup.sublist (List.take_sublist _ _) hnd
  · intro s hs
    exact mem_firstSeenDedup.1 (hperm.mem_iff.1 (List.mem_of_mem_take hs))
  · unfold extract_key_insights
    rw [List.length_take, hperm.length_eq]
  · intro hle
    unfold extract_key_insights
    rw [List.take_of_length_le (by rw [hperm.length_eq]; exact hle)]
    exact hperm

/-- Claim C3, counterexample.  The reversed enumeration gRev is a legitimate
hash-set order (it lists the distinct strings exactly once), yet on an input
whose insight strings are a then b the extraction returns them in the order
b, a: not first-seen order.  The source keeps whatever order list(set(...))
produces at line 137, not the first occurrence positions. -/
theorem C3_not_first_seen_order :
    SetEnum gRev
    ∧ extract_key_insights gRev exampleTwoIns ≠ specKeyInsights exampleTwoIns := by
  refine ⟨setEnum_gRev, ?_⟩
  decide

/-- Claim C3, amended.  Key-insight extraction concatenates the
key_insights, recommendations and key_points fields of every result in
input order, removes duplicates by exact string equality in an unspecified
hash-set enumeration order (not necessarily first-seen order), and caps the
output at 15 entries: for every valid enumeration order the output is
duplicate-free, drawn from the concatenation, of length
min 15 (number of distinct strings), and whenever at most 15 distinct
strings exist it is a permutation of them. -/
theorem C3_dedup_unspecified_order_cap15 :
    ∀ (f : List String → List String) (analyses : List Analysis),
      SetEnum f →
      (extract_key_insights f analyses).Nodup
      ∧ (∀ s ∈ extract_key_insights f analyses, s ∈ collectInsights analyses)
      ∧ (extract_key_insights f analyses).length =
          min 15 (firstSeenDedup (collectInsights analyses)).length
      ∧ ((firstSeenDedup (collectInsights analyses)).length ≤ 15 →
          (extract_key_insights f analyses).Perm
            (firstSeenDedup (collectInsights analyses))) :=
  fun f analyses hf => extract_key_insights_spec f analyses hf

/-- Claim C3, witness. -/
theorem C3_dedup_unspecified_order_cap15_w :
    (extract_key_insights firstSeenDedup exampleTwoIns).length =
      min 15 (firstSeenDedup (collectInsights exampleTwoIns)).length :=
  (C3_dedup_unspecified_order_cap15 firstSeenDedup exampleTwoIns
    setEnum_firstSeenDedup).2.2.1

/-- Claim C2, counterexample.  Two invocations of generate_insights on the
identical unchanged input differ: the generated_at field records the clock
of each invocation (line 39), and the key_insights ordering follows the
hash-set enumeration of that run (line 137).  Both environments are
legitimate runs: both set orders enumerate exactly the distinct strings. -/
theorem C2_not_byte_identical :
    SetEnum env0.setOrder ∧ SetEnum envB.setOrder
    ∧ generate_insights env0 exampleTwoIns ≠ generate_insights envB exampleTwoIns
    ∧ Option.map Insights.generated_at (generate_insights env0 exampleTwoIns)
        ≠ Option.map Insights.generated_at (generate_insights envB exampleTwoIns)
    ∧ Option.map Insights.key_insights (generate_insights env0 exampleTwoIns)
        ≠ Option.map Insights.key_insights (generate_insights envB exampleTwoIns) := by
  have h4 : Option.map Insights.generated_at (generate_insights env0 exampleTwoIns)
      ≠ Option.map Insights.generated_at (generate_insights envB exampleTwoIns) := by
    simp [generate_insights, env0, envB, exampleTwoIns]
  have h5 : Option.map Insights.key_insights (generate_insights env0 exampleTwoIns)
      ≠ Option.map Insights.key_insights (generate_insights envB exampleTwoIns) := by
    simp [generate_insights, env0, envB, extract_key_insights, collectInsights,
      firstSeenDedup, fsdStep, gRev, payload0, exampleTwoIns]
  exact ⟨setEnum_firstSeenDedup, setEnum_gRev,
    fun h => h4 (congrArg (Option.map Insights.generated_at) h), h4, h5⟩

/-- Claim C2, amended.  For a fixed input, every field of the produced
Insights except generated_at and the ordering of key_insights is the same
across invocations, whatever the clock readings and hash-set enumeration
orders of the two runs; generated_at records the invocation clock and
key_insights keeps the length and duplicate-freedom of the distinct insight
strings but not a fixed order (nor, past 15 distinct strings, a fixed
choice of survivors). -/
theorem C2_deterministic_except_volatile :
    ∀ (f g : List String → List String) (nA nB : String)
      (analyses : List Analysis),
      SetEnum f → SetEnum g →
      stableAgree (generate_insights ⟨nA, f⟩ analyses)
        (generate_insights ⟨nB, g⟩ analyses) := by
  intro f g nA nB analyses hf hg
  cases analyses with
  | nil => simp [generate_insights, stableAgree]
  | cons a rest =>
    have hlf := (extract_key_insights_spec f (a :: rest) hf).2.2.1
    have hlg := (extract_key_insights_spec g (a :: rest) hg).2.2.1
    have hnf := (extract_key_insights_spec f (a :: rest) hf).1
    have hng := (extract_key_insights_spec g (a :: rest) hg).1
    exact ⟨rfl, rfl, rfl, rfl, rfl, rfl, by rw [hlf, hlg], hnf, hng⟩

/-- Claim C2, witness for the amended theorem. -/
theorem C2_deterministic_except_volatile_w :
    stableAgree (generate_insights ⟨"t1", firstSeenDedup⟩ exampleTwoIns)
      (generate_insights ⟨"t2", firstSeenDedup⟩ exampleTwoIns) :=
  C2_deterministic_except_volatile firstSeenDedup firstSeenDedup "t1" "t2"
    exampleTwoIns setEnum_firstSeenDedup setEnum_firstSeenDedup

/-! ## Claim C4: analyze never raises; shape of its results -/

theorem dictSet_cons (k₁ : String) (v₁ : PyJson) (d : PyDict) (k : String)
    (v : PyJson) :
    dictSet ((k₁, v₁) :: d) k v =
      if k₁ = k then (k, v) :: d.map (fun kv => if kv.1 = k then (k, v) else kv)
      else (k₁, v₁) :: dictSet d k v := by
  unfold dictSet
  simp only [lookupKey]
  by_cases h : k₁ = k
  · subst h
    simp
  · by_cases h2 : (lookupKey k d).isSome
    · simp [h, Ne.symm h, h2]
    · simp [h, Ne.symm h, h2]

theorem lookup_map_replace_ne (d : PyDict) (k k' : String) (v : PyJson)
    (h : k ≠ k') :
    lookupKey k' (d.map (fun kv => if kv.1 = k then (k, v) else kv)) =
      lookupKey k' d := by
  induction d with
  | nil => rfl
  | cons kv d ih =>
    obtain ⟨k₁, v₁⟩ := kv
    by_cases h1 : k₁ = k
    · subst h1
      simp only [List.map_cons, if_pos rfl]
      simp only [lookupKey]
      rw [if_neg (Ne.symm h), if_neg (Ne.symm h)]
      exact ih
    · simp only [List.map_cons, if_neg h1]
      simp only [lookupKey]
      by_cases h2 : k' = k₁
      · rw [if_pos h2, if_pos h2]
      · rw [if_neg h2, if_neg h2]
        exact ih

theorem lookup_dictSet_self (d : PyDict) (k : String) (v : PyJson) :
    lookupKey k (dictSet d k v) = some v := by
  induction d with
  | nil => simp [dictSet, lookupKey]
  | cons kv d ih =>
    obtain ⟨k₁, v₁⟩ := kv
    rw [dictSet_cons]
    by_cases h : k₁ = k
    · rw [if_pos h]
      simp [lookupKey]
    · rw [if_neg h]
      simp only [lookupKey]
      rw [if_neg (Ne.symm h)]
      exact ih

theorem lookup_dictSet_ne (d : PyDict) (k k' : String) (v : PyJson)
    (h : k ≠ k') :
    lookupKey k' (dictSet d k v) = lookupKey k' d := by
  induction d with
  | nil =>
    simp [dictSet, lookupKey, Ne.symm h]
  | cons kv d ih =>
    obtain ⟨k₁, v₁⟩ := kv
    rw [dictSet_cons]
    by_cases h1 : k₁ = k
    · subst h1
      rw [if_pos rfl]
      simp only [lookupKey]
      rw [if_neg (Ne.symm h), if_neg (Ne.symm h)]
      exact lookup_map_replace_ne _ _ _ _ h
    · rw [if_neg h1]
      simp only [lookupKey]
      by_cases h2 : k' = k₁
      · rw [if_pos h2, if_pos h2]
      · rw [if_neg h2, if_neg h2]
        exact ih

/-- Claim C4, counterexample.  With a successful inference call whose raw
text parses as the JSON array [1, 2] (valid JSON, not an object), the line
parsed['analysis_type'] = ... raises TypeError; analyze catches it in its
blanket except handler and returns the error record {error, processing_time,
model}, with no analysis_type and no timestamp key: the claim's
"otherwise" branch fails for this non-transport-failure outcome. -/
theorem C4_nonobject_json_gives_error_record :
    analyze "m" jloadsArr envArr "content" "sentiment" none =
      errRecord tyErrMsg 1 "m"
    ∧ lookupKey "analysis_type"
        (analyze "m" jloadsArr envArr "content" "sentiment" none) = none
    ∧ lookupKey "timestamp"
        (analyze "m" jloadsArr envArr "content" "sentiment" none) = none :=
  ⟨rfl, rfl, rfl⟩

/-- Claim C4, amended.  analyze is total (never raises) and its result has
exactly four shapes: on transport failure the record {error,
processing_time, model}; on success with a JSON-object response, that
object tagged with analysis_type, timestamp, processing_time and model; on
success with a response that is not valid JSON, the record {analysis_type,
raw_response, timestamp, parsed:false} plus processing_time and model; and
on success with a response that is valid JSON but not an object, the
TypeError raised while tagging is caught by the blanket handler and the
{error, processing_time, model} record is returned. -/
theorem C4_analyze_shapes :
    ∀ (model : String) (jloads : String → Option PyJson) (env : CallEnv)
      (content analysis_type : String) (metadata : Option String),
      (∀ e, env.outcome = .fail e →
        analyze model jloads env content analysis_type metadata =
          errRecord e env.tErr model)
      ∧ (∀ raw d, env.outcome = .ok raw → jloads raw = some (.obj d) →
          analyze model jloads env content analysis_type metadata =
            dictSet (dictSet (dictSet (dictSet d "analysis_type"
              (.str analysis_type)) "timestamp" (.str env.now))
              "processing_time" (.num env.tOk)) "model" (.str model)
          ∧ lookupKey "analysis_type"
              (analyze model jloads env content analysis_type metadata) =
              some (.str analysis_type)
          ∧ lookupKey "timestamp"
              (analyze model jloads env content analysis_type metadata) =
              some (.str env.now))
      ∧ (∀ raw, env.outcome = .ok raw → jloads raw = none →
          analyze model jloads env content analysis_type metadata =
            dictSet (dictSet [("analysis_type", .str analysis_type),
              ("raw_response", .str raw), ("timestamp", .str env.now),
              ("parsed", .boolean false)] "processing_time" (.num env.tOk))
              "model" (.str model))
      ∧ (∀ raw j, env.outcome = .ok raw → jloads raw = some j →
          (∀ d, j ≠ .obj d) →
          analyze model jloads env content analysis_type metadata =
            errRecord tyErrMsg env.tErr model) := by
  intro model jloads env content analysis_type metadata
  refine ⟨?_, ?_, ?_, ?_⟩
  · intro e he
    unfold analyze
    rw [he]
  · intro raw d ho hj
    have hr : analyze model jloads env content analysis_type metadata =
        dictSet (dictSet (dictSet (dictSet d "analysis_type"
          (.str analysis_type)) "timestamp" (.str env.now))
          "processing_time" (.num env.tOk)) "model" (.str model) := by
      unfold analyze
      rw [ho]
      dsimp only
      unfold structure_result
      rw [hj]
    refine ⟨hr, ?_, ?_⟩
    · rw [hr, lookup_dictSet_ne _ _ _ _ (by decide),
        lookup_dictSet_ne _ _ _ _ (by decide),
        lookup_dictSet_ne _ _ _ _ (by decide), lookup_dictSet_self]
    · rw [hr, lookup_dictSet_ne _ _ _ _ (by decide),
        lookup_dictSet_ne _ _ _ _ (by decide), lookup_dictSet_self]
  · intro raw ho hj
    unfold analyze
    rw [ho]
    dsimp only
    unfold structure_result
    rw [hj]
  · intro raw j ho hj hne
    unfold analyze
    rw [ho]
    dsimp only
    unfold structure_result
    rw [hj]
    cases j with
    | obj d => exact absurd rfl (hne d)
    | arr a => rfl
    | str s => rfl
    | num n => rfl
    | boolean b => rfl
    | null => rfl

/-- Claim C4, witness: the transport-failure case at a concrete input. -/
theorem C4_analyze_shapes_w :
    analyze "m" (fun _ => none) ⟨.fail "timeout", "t", 2, 3⟩ "c" "sentiment"
        none =
      errRecord "timeout" 3 "m" :=
  (C4_analyze_shapes "m" (fun _ => none) ⟨.fail "timeout", "t", 2, 3⟩ "c"
    "sentiment" none).1 "timeout" rfl

/-! ## Claim C5: batch_analyze length, order and isolation -/

theorem batchGo_length (model : String) (jloads : String → Option PyJson)
    (envs : Nat → CallEnv) (analysis_type : String) :
    ∀ (items : List Item) (i : Nat),
      (batchGo model jloads envs analysis_type i items).length = items.length := by
  intro items
  induction items with
  | nil => intro i; rfl
  | cons item rest ih =>
    intro i
    simp [batchGo, ih]

theorem batchGo_get? (model : String) (jloads : String → Option PyJson)
    (envs : Nat → CallEnv) (analysis_type : String) :
    ∀ (items : List Item) (i j : Nat),
      (batchGo model jloads envs analysis_type i items).get? j =
        (items.get? j).map (fun item =>
          analyze model jloads (envs (i + j)) (item.content.getD "")
            analysis_type item.metadata) := by
  intro items
  induction items with
  | nil => intro i j; simp [batchGo]
  | cons item rest ih =>
    intro i j
    cases j with
    | zero => simp [batchGo]
    | succ j =>
      simp only [batchGo, List.get?]
      rw [ih (i + 1) j]
      have : i + 1 + j = i + (j + 1) := by omega
      rw [this]

/-- Claim C5.  batch_analyze returns one result per input item, in input
order: the output length equals the input length, and the j-th result is
exactly the analyze result of the j-th item under the j-th call environment.
Each entry is a function of its own item and its own call outcome alone, so
a failure (transport or parse) of one item shows up only in that item's
entry, and the loop never aborts early. -/
theorem C5_batch_pointwise :
    ∀ (model : String) (jloads : String → Option PyJson)
      (envs : Nat → CallEnv) (items : List Item) (analysis_type : String),
      (batch_analyze model jloads envs items analysis_type).length = items.length
      ∧ (∀ (j : Nat) (item : Item), items.get? j = some item →
          (batch_analyze model jloads envs items analysis_type).get? j =
            some (analyze model jloads (envs j) (item.content.getD "")
              analysis_type item.metadata)) := by
  intro model jloads envs items analysis_type
  constructor
  · exact batchGo_length model jloads envs analysis_type items 0
  · intro j item hj
    unfold batch_analyze
    rw [batchGo_get? model jloads envs analysis_type items 0 j, hj]
    simp

/-- Claim C5, witness: a two-item batch where the first call fails in
transport and the second succeeds with unparseable text; each item's entry
is its own analyze result. -/
theorem C5_batch_pointwise_w :
    (batch_analyze "m" (fun _ => none)
        (fun i => if i = 0 then ⟨.fail "timeout", "t0", 1, 2⟩
          else ⟨.ok "plain text", "t1", 3, 4⟩)
        [⟨some "c0", none⟩, ⟨none, some "meta"⟩] "trend").length = 2
    ∧ (batch_analyze "m" (fun _ => none)
        (fun i => if i = 0 then ⟨.fail "timeout", "t0", 1, 2⟩
          else ⟨.ok "plain text", "t1", 3, 4⟩)
        [⟨some "c0", none⟩, ⟨none, some "meta"⟩] "trend").get? 1 =
        some (analyze "m" (fun _ => none) ⟨.ok "plain text", "t1", 3, 4⟩ ""
          "trend" (some "meta")) :=
  ⟨(C5_batch_pointwise "m" (fun _ => none)
      (fun i => if i = 0 then ⟨.fail "timeout", "t0", 1, 2⟩
        else ⟨.ok "plain text", "t1", 3, 4⟩)
      [⟨some "c0", none⟩, ⟨none, some "meta"⟩] "trend").1,
   (C5_batch_pointwise "m" (fun _ => none)
      (fun i => if i = 0 then ⟨.fail "timeout", "t0", 1, 2⟩
        else ⟨.ok "plain text", "t1", 3, 4⟩)
      [⟨some "c0", none⟩, ⟨none, some "meta"⟩] "trend").2 1 ⟨none, some "meta"⟩ rfl⟩

/-! ## Claim C8: dominant sentiment selection in generate_summary -/

/-- Claim C8.  The dominant bucket chosen by generate_summary is the strict
argmax over the three percentages, and an exact tie resolves by the fixed
precedence positive, then negative, then neutral: Python max returns the
first maximal item of the percentages dict, whose insertion order is
positive, negative, neutral.  The tie of 50/50/0 resolves to positive in
the full rendered summary, identically on every run since generate_summary
is a function of the insights alone. -/
theorem C8_dominant_tie_precedence :
    (∀ p : SentPcts,
      dominantOf p =
        (if p.negative ≤ p.positive ∧ p.neutral ≤ p.positive then
          ("positive", p.positive)
        else if p.positive < p.negative ∧ p.neutral ≤ p.negative then
          ("negative", p.negative)
        else ("neutral", p.neutral)))
    ∧ generate_summary (some tieInsights) =
        "Analysis of 2 data points collected during the specified period. " ++
        "Overall sentiment is predominantly positive (50%)." := by
  constructor
  · intro p
    unfold dominantOf pyMaxBySnd
    simp only [List.foldl]
    rcases le_or_lt p.negative p.positive with h1 | h1
    · rw [if_neg (not_lt.2 h1)]
      dsimp only
      rcases le_or_lt p.neutral p.positive with h2 | h2
      · rw [if_neg (not_lt.2 h2), if_pos ⟨h1, h2⟩]
      · rw [if_pos h2,
          if_neg (by rintro ⟨hdum, hh⟩; exact absurd hh (not_le.2 h2)),
          if_neg (by rintro ⟨hh, hdum⟩; exact absurd hh (not_lt.2 h1))]
    · rw [if_pos h1]
      dsimp only
      rcases le_or_lt p.neutral p.negative with h2 | h2
      · rw [if_neg (not_lt.2 h2),
          if_neg (by rintro ⟨hh, hdum⟩; exact absurd h1 (not_lt.2 hh)),
          if_pos ⟨h1, h2⟩]
      · rw [if_pos h2,
          if_neg (by rintro ⟨hh, hdum⟩; exact absurd h1 (not_lt.2 hh)),
          if_neg (by rintro ⟨hdum, hh⟩; exact absurd hh (not_le.2 h2))]
  · rfl

/-! ## Claim C9: unsupported export formats -/

/-- Claim C9.  When the requested report exists and the format string is
outside {json, pdf, html}, export_report answers with the 400 error whose
detail names the received format value and the three supported formats
verbatim, and the stored state is returned unchanged: the handler performs
no write on this path (nor on any other). -/
theorem C9_unsupported_format :
    ∀ (db : List Report) (report_id : Int) (format : String),
      (db.find? (fun r => r.id = report_id)).isSome →
      format ≠ "json" → format ≠ "pdf" → format ≠ "html" →
      export_report db report_id format =
        (.badRequest ("Unsupported format: " ++ format ++
          ". Use json, pdf, or html"), db) := by
  intro db report_id format hex h1 h2 h3
  unfold export_report
  obtain ⟨report, hr⟩ := Option.isSome_iff_exists.1 hex
  rw [hr]
  dsimp only
  rw [if_neg h1, if_neg h2, if_neg h3]

/-- Claim C9, witness: exporting the stored example report as "xml". -/
theorem C9_unsupported_format_w :
    export_report [exampleReport] 1 "xml" =
      (.badRequest "Unsupported format: xml. Use json, pdf, or html",
        [exampleReport]) :=
  C9_unsupported_format [exampleReport] 1 "xml" (by decide)
    (by decide) (by decide) (by decide)

/-! ## Claim C6: trend extraction -/

theorem updTrend_topic (t : String) (e : PyTrend) (acc : TrendAcc) :
    (updTrend t e acc).topic = acc.topic := by
  unfold updTrend
  split <;> rfl

theorem updTrend_of_ne {t : String} {e : PyTrend} {acc : TrendAcc}
    (h : acc.topic ≠ t) : updTrend t e acc = acc := by
  unfold updTrend
  rw [if_neg h]

theorem addTrend_eq (m : List TrendAcc) (e : PyTrend) :
    addTrend m e =
      match truthyTopic e with
      | none => m
      | some t =>
        (if m.any (fun acc => acc.topic = t) then m
          else m ++ [⟨t, 0, []⟩]).map (updTrend t e) := by
  unfold addTrend truthyTopic
  cases e.topic with
  | none => rfl
  | some t =>
    by_cases h : t = ""
    · simp [h]
    · simp [h]

theorem trendsMap_eq_flat :
    ∀ (l : List Analysis) (m : List TrendAcc),
      l.foldl (fun m a => (trendsOf a).foldl addTrend m) m =
        ((l.map trendsOf).flatten).foldl addTrend m := by
  intro l
  induction l with
  | nil => intro m; rfl
  | cons a rest ih =>
    intro m
    simp only [List.foldl_cons, List.map_cons, List.flatten_cons,
      List.foldl_append]
    exact ih _

theorem truthyTopics_append (es : List PyTrend) (e : PyTrend) :
    truthyTopics (es ++ [e]) = truthyTopics es ++ (truthyTopic e).toList := by
  unfold truthyTopics
  rw [List.filterMap_append]
  cases h : truthyTopic e <;> simp [List.filterMap, h]

theorem entriesFor_append (t : String) (es : List PyTrend) (e : PyTrend) :
    entriesFor t (es ++ [e]) =
      entriesFor t es ++ if truthyTopic e = some t then [e] else [] := by
  unfold entriesFor
  rw [List.filter_append]
  by_cases h : truthyTopic e = some t <;> simp [h]

theorem specTotal_append (t : String) (es : List PyTrend) (e : PyTrend) :
    specTotal t (es ++ [e]) =
      specTotal t es +
        if truthyTopic e = some t then e.mentions.getD 1 else 0 := by
  unfold specTotal
  rw [entriesFor_append]
  by_cases h : truthyTopic e = some t <;> simp [h]

theorem specScores_append (t : String) (es : List PyTrend) (e : PyTrend) :
    specScores t (es ++ [e]) =
      specScores t es ++
        if truthyTopic e = some t then [scoreOf (e.sentiment.getD "neutral")]
        else [] := by
  unfold specScores
  rw [entriesFor_append]
  by_cases h : truthyTopic e = some t <;> simp [h]

theorem spec_of_not_mem {t : String} {es : List PyTrend}
    (h : t ∉ truthyTopics es) :
    specTotal t es = 0 ∧ specScores t es = [] := by
  have he : entriesFor t es = [] := by
    unfold entriesFor
    rw [List.filter_eq_nil_iff]
    intro e he hcond
    apply h
    unfold truthyTopics
    exact List.mem_filterMap.2 ⟨e, he, by simpa using hcond⟩
  unfold specTotal specScores
  rw [he]
  exact ⟨rfl, rfl⟩

theorem trendsFold_spec :
    ∀ es : List PyTrend,
      ((es.foldl addTrend []).map TrendAcc.topic =
        firstSeenDedup (truthyTopics es))
      ∧ (∀ acc ∈ es.foldl addTrend [],
          acc.total_mentions = specTotal acc.topic es
          ∧ acc.sentiment_scores = specScores acc.topic es) := by
  intro es
  induction es using List.reverseRecOn with
  | nil =>
    refine ⟨rfl, ?_⟩
    intro acc h
    cases h
  | append_singleton es e ih =>
    obtain ⟨ihTop, ihVal⟩ := ih
    simp only [List.foldl_append, List.foldl_cons, List.foldl_nil]
    rw [addTrend_eq]
    cases ht : truthyTopic e with
    | none =>
      rw [truthyTopics_append, ht]
      simp only [Option.toList, List.append_nil]
      refine ⟨ihTop, ?_⟩
      intro acc hacc
      have hv := ihVal acc hacc
      rw [specTotal_append, specScores_append, ht]
      simp [hv.1, hv.2]
    | some t =>
      dsimp only
      have htts : truthyTopics (es ++ [e]) = truthyTopics es ++ [t] := by
        rw [truthyTopics_append, ht]
        rfl
      by_cases hmem : (es.foldl addTrend []).any (fun acc => acc.topic = t)
      · rw [if_pos hmem]
        have hmem' : t ∈ firstSeenDedup (truthyTopics es) := by
          rw [← ihTop]
          rcases List.any_eq_true.1 hmem with ⟨acc, hacc, hcond⟩
          exact List.mem_map.2 ⟨acc, hacc, by simpa using hcond⟩
        constructor
        · rw [List.map_map,
            show TrendAcc.topic ∘ updTrend t e = TrendAcc.topic from
              funext fun acc => updTrend_topic t e acc,
            htts, firstSeenDedup_append_singleton]
          unfold fsdStep
          rw [if_pos hmem']
          exact ihTop
        · intro acc' hacc'
          rcases List.mem_map.1 hacc' with ⟨acc, hacc, rfl⟩
          have hv := ihVal acc hacc
          rw [updTrend_topic, specTotal_append, specScores_append, ht]
          by_cases hat : acc.topic = t
          · unfold updTrend
            rw [if_pos hat]
            constructor
            · simp [hat, hv.1]
            · simp [hat, hv.2]
          · unfold updTrend
            rw [if_neg hat]
            have hcond : ¬ (some t = some acc.topic) := by
              simpa using fun h => hat h.symm
            simp [hcond, hv.1, hv.2]
      · rw [if_neg hmem]
        have hnot : t ∉ truthyTopics es := by
          intro hin
          apply hmem
          have : t ∈ (es.foldl addTrend []).map TrendAcc.topic := by
            rw [ihTop]
            exact mem_firstSeenDedup.2 hin
          rcases List.mem_map.1 this with ⟨acc, hacc, hte⟩
          exact List.any_eq_true.2 ⟨acc, hacc, by simpa using hte⟩
        have hzero := spec_of_not_mem hnot
        constructor
        · rw [List.map_map,
            show TrendAcc.topic ∘ updTrend t e = TrendAcc.topic from
              funext fun acc => updTrend_topic t e acc,
            List.map_append, htts, firstSeenDedup_append_singleton]
          unfold fsdStep
          rw [if_neg (fun h => hnot (mem_firstSeenDedup.1 h)), ihTop]
          rfl
        · intro acc' hacc'
          rcases List.mem_map.1 hacc' with ⟨acc, hacc, rfl⟩
          rcases List.mem_append.1 hacc with hold | hnew
          · have hat : acc.topic ≠ t := by
              intro he'
              exact hmem (List.any_eq_true.2 ⟨acc, hold, by simpa using he'⟩)
            rw [updTrend_of_ne hat, specTotal_append, specScores_append, ht]
            have hv := ihVal acc hold
            have hcond : ¬ (some t = some acc.topic) := by
              simpa using fun h => hat h.symm
            simp [hcond, hv.1, hv.2]
          · have hacc0 : acc = ⟨t, 0, []⟩ := by simpa using hnew
            subst hacc0
            unfold updTrend
            rw [if_pos rfl]
            dsimp only
            constructor
            · rw [specTotal_append, ht]
              simp [hzero.1]
            · rw [specScores_append, ht]
              simp [hzero.2]

theorem insertDesc_perm (x : TrendOut) (l : List TrendOut) :
    (insertDesc x l).Perm (x :: l) := by
  induction l with
  | nil => exact List.Perm.refl _
  | cons y ys ih =>
    unfold insertDesc
    split
    · exact List.Perm.refl _
    · exact (ih.cons y).trans (List.Perm.swap x y ys)

theorem sortDesc_perm (l : List TrendOut) : (sortDesc l).Perm l := by
  induction l with
  | nil => exact List.Perm.refl _
  | cons x l ih =>
    show (insertDesc x (sortDesc l)).Perm (x :: l)
    exact (insertDesc_perm x (sortDesc l)).trans (ih.cons x)

theorem insertDesc_sorted (x : TrendOut) (l : List TrendOut)
    (h : l.Pairwise (fun a b => b.total_mentions ≤ a.total_mentions)) :
    (insertDesc x l).Pairwise
      (fun a b => b.total_mentions ≤ a.total_mentions) := by
  induction l with
  | nil =>
    unfold insertDesc
    exact List.pairwise_singleton _ _
  | cons y ys ih =>
    rcases List.pairwise_cons.1 h with ⟨hy, hys⟩
    unfold insertDesc
    split
    · next hc =>
      refine List.pairwise_cons.2 ⟨?_, h⟩
      intro b hb
      rcases List.mem_cons.1 hb with rfl | hb
      · exact hc
      · exact le_trans (hy b hb) hc
    · next hc =>
      refine List.pairwise_cons.2 ⟨?_, ih hys⟩
      intro b hb
      rcases (insertDesc_perm x ys).mem_iff.1 hb with hb'
      rcases List.mem_cons.1 hb' with rfl | hb''
      · exact le_of_lt (lt_of_not_le hc)
      · exact hy b hb''

theorem sortDesc_sorted (l : List TrendOut) :
    (sortDesc l).Pairwise (fun a b => b.total_mentions ≤ a.total_mentions) := by
  induction l with
  | nil => simp [sortDesc]
  | cons x l ih => exact insertDesc_sorted x (sortDesc l) ih

theorem insertDesc_filter (x : TrendOut) (l : List TrendOut) (k : Int) :
    (insertDesc x l).filter (fun y => y.total_mentions = k) =
      if x.total_mentions = k then
        x :: l.filter (fun y => y.total_mentions = k)
      else l.filter (fun y => y.total_mentions = k) := by
  induction l with
  | nil =>
    unfold insertDesc
    by_cases hx : x.total_mentions = k <;> simp [List.filter, hx]
  | cons y ys ih =>
    unfold insertDesc
    by_cases hc : y.total_mentions ≤ x.total_mentions
    · rw [if_pos hc]
      by_cases hx : x.total_mentions = k <;>
        by_cases hy : y.total_mentions = k <;>
        simp [List.filter, hx, hy]
    · rw [if_neg hc]
      by_cases hx : x.total_mentions = k
      · have hy : ¬ y.total_mentions = k := fun h =>
          hc (le_of_eq (h.trans hx.symm))
        simp [List.filter, hx, hy, ih]
      · by_cases hy : y.total_mentions = k <;> simp [List.filter, hx, hy, ih]

theorem sortDesc_filter (l : List TrendOut) (k : Int) :
    (sortDesc l).filter (fun y => y.total_mentions = k) =
      l.filter (fun y => y.total_mentions = k) := by
  induction l with
  | nil => rfl
  | cons x l ih =>
    show (insertDesc x (sortDesc l)).filter _ = _
    rw [insertDesc_filter]
    by_cases hx : x.total_mentions = k <;> simp [List.filter, hx, ih]

/-- Claim C6.  Trend extraction merges entries by exact topic string: every
output record's total_mentions is the sum of mentions (default 1) over all
entries of its topic across the flat entry stream, and its
overall_sentiment is derived from the per-entry signed scores (+1 positive,
-1 negative, 0 otherwise) by the mean thresholds (above 3/10 positive,
below -3/10 negative, else neutral).  The output is sorted by total
mentions descending, ties keep first-encountered order (the filter at each
mention count is unchanged by the sort, and the merged map lists topics in
first-encounter order), and it is truncated to the top limit (10 in
generate_insights).  The two-entry example merges to topic A, mentions 8,
neutral. -/
theorem C6_trend_extraction :
    extract_top_trends exampleTrends 10 = [⟨"A", 8, "neutral"⟩]
    ∧ (∀ (analyses : List Analysis) (limit : Nat),
        (extract_top_trends analyses limit).length ≤ limit
        ∧ (extract_top_trends analyses limit).Pairwise
            (fun a b => b.total_mentions ≤ a.total_mentions)
        ∧ (∀ tr ∈ extract_top_trends analyses limit,
            tr.total_mentions = specTotal tr.topic (allTrendEntries analyses)
            ∧ tr.overall_sentiment =
                overallSentiment (specScores tr.topic (allTrendEntries analyses)))
        ∧ (∀ k : Int,
            (sortDesc ((trendsMap analyses).map finalizeTrend)).filter
                (fun y => y.total_mentions = k) =
              ((trendsMap analyses).map finalizeTrend).filter
                (fun y => y.total_mentions = k))
        ∧ (trendsMap analyses).map TrendAcc.topic =
            firstSeenDedup (truthyTopics (allTrendEntries analyses))) := by
  constructor
  · simp [extract_top_trends, trendsMap, exampleTrends, trendsOf, payload0,
      addTrend, updTrend, scoreOf, finalizeTrend, sortDesc, insertDesc,
      overallSentiment]
    norm_num
  · intro analyses limit
    have hflat : trendsMap analyses =
        (allTrendEntries analyses).foldl addTrend [] := by
      unfold trendsMap allTrendEntries
      exact trendsMap_eq_flat analyses []
    have hspec := trendsFold_spec (allTrendEntries analyses)
    refine ⟨?_, ?_, ?_, ?_, ?_⟩
    · unfold extract_top_trends
      rw [List.length_take]
      exact min_le_left _ _
    · exact List.Pairwise.sublist (List.take_sublist _ _) (sortDesc_sorted _)
    · intro tr htr
      have h1 : tr ∈ sortDesc ((trendsMap analyses).map finalizeTrend) :=
        List.mem_of_mem_take htr
      have h2 : tr ∈ (trendsMap analyses).map finalizeTrend :=
        (sortDesc_perm _).mem_iff.1 h1
      rcases List.mem_map.1 h2 with ⟨acc, hacc, rfl⟩
      rw [hflat] at hacc
      have hv := hspec.2 acc hacc
      exact ⟨hv.1, congrArg overallSentiment hv.2 ▸ rfl⟩
    · intro k
      exact sortDesc_filter _ k
    · rw [hflat]
      exact hspec.1

/-- Claim C6, witness: the merged record of the two-entry example satisfies
the per-topic characterization. -/
theorem C6_trend_extraction_w :
    (⟨"A", 8, "neutral"⟩ : TrendOut).total_mentions =
      specTotal "A" (allTrendEntries exampleTrends)
    ∧ (⟨"A", 8, "neutral"⟩ : TrendOut).overall_sentiment =
        overallSentiment (specScores "A" (allTrendEntries exampleTrends)) :=
  (C6_trend_extraction.2 exampleTrends 10).2.2.1 ⟨"A", 8, "neutral"⟩
    (by rw [C6_trend_extraction.1]; exact List.mem_singleton.2 rfl)
